import Mathlib

/-!
Verification of the command-execution / session-reuse core of the
container-use editor extension.

The development shallowly embeds, from the TypeScript source:
  * the whitespace / trimming / splitting primitives used by the tabular
    output parser (JavaScript String.prototype.trim and split(/\s{2,}/));
  * the tabular output parser (parseEnvironmentLine, parseEnvironmentLines,
    src/cu/cli.ts);
  * the process invoker result mapping (run, src/cli.ts and src/cu/cli.ts);
  * the availability probes (isInstalled, both revisions);
  * the environments listing (environments, src/cu/cli.ts);
  * the session terminal manager (findOrCreateContainerUseTerminal,
    isTerminalBusy, handleBusyTerminal, openTerminalForEnvironment,
    src/commands/terminal.ts).

Strings are modelled as lists of characters (Str); asynchronous host
interactions (subprocess outcome, user dialog choice, terminal sends) are
modelled by explicit data passed in and explicit event traces passed out.
-/

namespace ContainerUse

/-- Strings are modelled as lists of characters. -/
abbrev Str := List Char

/-- Character class of the JavaScript whitespace used by trim and the
split regex; restricted to the ASCII whitespace characters that can occur
in the tool's output. -/
def isWsChar (c : Char) : Bool :=
  c == ' ' || c == '\t' || c == '\n' || c == '\r' || c == '\x0b' || c == '\x0c'

/-- JavaScript String.prototype.trim: remove whitespace from both ends. -/
def trimWs (s : Str) : Str :=
  ((s.dropWhile isWsChar).reverse.dropWhile isWsChar).reverse

/-- Worker for the split on runs of two-or-more whitespace characters
(JavaScript split with the regex matching two or more whitespace
characters, greedy).  First argument: remaining input; second: current
column accumulated in reverse; third: true while skipping the rest of a
separator run. -/
def splitGo : Str → Str → Bool → List Str
  | [], _, true => [[]]
  | [], acc, false => [acc.reverse]
  | c :: cs, acc, true =>
    if isWsChar c then splitGo cs acc true
    else splitGo cs [c] false
  | c :: cs, acc, false =>
    if isWsChar c then
      match cs with
      | [] => [(c :: acc).reverse]
      | c2 :: cs2 =>
        if isWsChar c2 then acc.reverse :: splitGo cs2 [] true
        else splitGo (c2 :: cs2) (c :: acc) false
    else splitGo cs (c :: acc) false

/-- JavaScript split(/\s{2,}/): split on each maximal run of two or more
whitespace characters. -/
def splitWs2 (s : Str) : List Str := splitGo s [] false

/-- Boolean substring test (JavaScript String.prototype.includes). -/
def containsSub (needle : Str) : Str → Bool
  | [] => needle.isPrefixOf []
  | a :: t => needle.isPrefixOf (a :: t) || containsSub needle t

/-- Convenience for writing concrete inputs. -/
def str (s : String) : Str := s.toList

-- Sanity checks of the split against the JavaScript behaviour.
example : splitWs2 (str "env-1  My Env  2024-01-01") =
    [str "env-1", str "My Env", str "2024-01-01"] := by decide
example : splitWs2 (str "a   b") = [str "a", str "b"] := by decide
example : splitWs2 (str "env-3") = [str "env-3"] := by decide
example : trimWs (str "  a b  ") = str "a b" := by decide

/-- One container-backed environment as parsed from the tool's tabular
output (interface Environment, src/cu/cli.ts). -/
structure Environment where
  id : Str
  name : Str
  title : Str
  created : Option Str
  updated : Option Str
deriving DecidableEq, Repr

/-- Outcome of one subprocess invocation (interface CommandResult).  The
success field is always set by run, so it is modelled as a plain Bool. -/
structure CommandResult where
  stdout : Str
  stderr : Str
  exitCode : Int
  success : Bool
deriving DecidableEq, Repr

/-- What the underlying execAsync call did: resolved with the two streams
(exit code 0), or rejected with an error object carrying optional captured
streams, a message, and an optional numeric code. -/
inductive ExecOutcome
  | ok (stdout stderr : Str)
  | err (stdout stderr : Option Str) (message : Str) (code : Option Int)
deriving DecidableEq, Repr

/-- ContainerUseCli.run, modelled on the outcome of the one execAsync call
it makes (identical logic in src/cli.ts and src/cu/cli.ts): on resolution
the trimmed streams with exit code 0 and success; on rejection the
trimmed optional streams with JavaScript-falsy fallbacks
(error.stdout?.trim() || two-quotes, error.stderr?.trim() || error.message
|| the unknown-error text, error.code || 1). -/
def run (outcome : ExecOutcome) : CommandResult :=
  match outcome with
  | .ok out err =>
    { stdout := trimWs out, stderr := trimWs err, exitCode := 0, success := true }
  | .err out err message code =>
    let errStdout := (out.map trimWs).getD []
    let errStderr := (err.map trimWs).getD []
    { stdout := errStdout
      stderr :=
        if !errStderr.isEmpty then errStderr
        else if !message.isEmpty then message
        else str "Unknown error"
      exitCode := match code with | some c => if c == 0 then 1 else c | none => 1
      success := false }

/-- parseEnvironmentLine (src/cu/cli.ts): trim the line, split on runs of
two-or-more whitespace, trim each part, require at least two columns, and
map columns positionally; the name and title fall back to the id when the
title column is the empty string. -/
def parseEnvironmentLine (line : Str) : Option Environment :=
  let trimmed := trimWs line
  if trimmed.isEmpty then
    none
  else
    let parts := (splitWs2 trimmed).map trimWs
    if parts.length < 2 then
      none
    else
      let idPart := parts.headD []
      let titlePart := (parts.drop 1).headD []
      some
        { id := if idPart.isEmpty then [] else idPart
          name := if titlePart.isEmpty then idPart else titlePart
          title := if titlePart.isEmpty then idPart else titlePart
          created := parts.get? 2
          updated := parts.get? 3 }

/-- The header test used by the filter in parseEnvironmentLines: the
trimmed line starts with ID and contains TITLE, CREATED or UPDATED. -/
def isHeaderLine (line : Str) : Bool :=
  let trimmed := trimWs line
  (str "ID").isPrefixOf trimmed &&
    (containsSub (str "TITLE") trimmed ||
     containsSub (str "CREATED") trimmed ||
     containsSub (str "UPDATED") trimmed)

/-- The filter predicate of parseEnvironmentLines: drop blank lines and
header lines. -/
def keepLine (line : Str) : Bool :=
  !(trimWs line).isEmpty && !isHeaderLine line

/-- parseEnvironmentLines (src/cu/cli.ts): filter out blank and header
lines, parse each remaining line, keep the non-null results. -/
def parseEnvironmentLines (lines : List Str) : List Environment :=
  (lines.filter keepLine).filterMap parseEnvironmentLine

/-- Split on the newline character (JavaScript split with a one-character
separator string), as used on result.stdout by environments. -/
def splitOnNewline : Str → List Str
  | [] => [[]]
  | c :: cs =>
    if c == '\n' then [] :: splitOnNewline cs
    else
      match splitOnNewline cs with
      | [] => [[c]]
      | l :: ls => (c :: l) :: ls

/-- environments (src/cu/cli.ts), modelled on the CommandResult produced
by its one run call: failed or non-zero-exit results and empty stdout give
the empty list; otherwise the stdout lines are parsed, and an empty parse
also gives the empty list. -/
def environments (result : CommandResult) : List Environment :=
  if !result.success || result.exitCode != 0 then []
  else if result.stdout.isEmpty then []
  else
    let lines := splitOnNewline result.stdout
    let envs := parseEnvironmentLines lines
    if envs.length == 0 then [] else envs

/-- isInstalled (src/cu/cli.ts), modelled on the CommandResult of its
probe run with the help flag: stdout must be non-empty and contain the
validation text stdio. -/
def isInstalledCu (result : CommandResult) : Bool :=
  !result.stdout.isEmpty && containsSub (str "stdio") result.stdout

/-- isInstalled (src/cli.ts, the earlier revision), modelled on the
CommandResult of its probe run: returns true when stderr is non-empty and
contains stdio, otherwise returns whether the exit code is 0. -/
def isInstalledOld (result : CommandResult) : Bool :=
  if !result.stderr.isEmpty && containsSub (str "stdio") result.stderr then true
  else result.exitCode == 0

example : parseEnvironmentLines
    [str "ID  TITLE  CREATED  UPDATED", str "env-1  My Env  2024-01-01  2024-01-02"] =
    [{ id := str "env-1", name := str "My Env", title := str "My Env",
       created := some (str "2024-01-01"), updated := some (str "2024-01-02") }] := by
  decide

example : parseEnvironmentLine (str "env-3") = none := by decide

/-! ## Session terminal manager (src/commands/terminal.ts) -/

/-- The observable shape of a terminal's shell integration object: whether
its executeCommand member is defined and whether its cwd member is
defined (the two members isTerminalBusy inspects). -/
structure ShellIntegration where
  executeCommandDefined : Bool
  cwdDefined : Bool
deriving DecidableEq, Repr

/-- A host terminal: its display name and its optional shell integration
object. -/
structure Terminal where
  name : String
  shellIntegration : Option ShellIntegration
deriving DecidableEq, Repr

/-- TERMINAL_CONFIG.NAME. -/
def containerUseTerminalName : String := "Container Use"

/-- MESSAGES.INTERRUPT_PROCESS, the confirming choice of the busy-terminal
warning dialog. -/
def interruptProcessChoice : String := "Interrupt Process"

/-- One observable action on the shared terminal: a sendText call (with
its addNewLine flag) or a show call. -/
inductive TerminalEvent
  | sendText (text : String) (addNewLine : Bool)
  | reveal
deriving DecidableEq, Repr

/-- TERMINAL_CONFIG.CTRL_C. -/
def ctrlC : String := "\x03"

/-- TERMINAL_CONFIG.CLEAR_LINE. -/
def clearLine : String := "\x15"

/-- findOrCreateContainerUseTerminal: first terminal named Container Use,
or a freshly created one (no shell integration yet); the Bool is
isNewlyCreated. -/
def findOrCreateContainerUseTerminal (terminals : List Terminal) :
    Terminal × Bool :=
  match terminals.find? (fun t => t.name == containerUseTerminalName) with
  | some t => (t, false)
  | none => ({ name := containerUseTerminalName, shellIntegration := none }, true)

/-- isTerminalBusy: with shell integration present, busy iff the
executeCommand member is defined and the cwd member is defined; without
shell integration, not busy. -/
def isTerminalBusy (terminal : Terminal) : Bool :=
  match terminal.shellIntegration with
  | some si => si.executeCommandDefined && si.cwdDefined
  | none => false

/-- handleBusyTerminal, modelled on the user's dialog choice (some choice
string, or none when the dialog is dismissed): when the choice is
Interrupt Process it sends Ctrl+C twice, the line clear, the exit command
and the screen clear, in that order, and reports true; otherwise it sends
nothing and reports false. -/
def handleBusyTerminal (userChoice : Option String) :
    Bool × List TerminalEvent :=
  if userChoice == some interruptProcessChoice then
    (true,
      [.sendText ctrlC false, .sendText ctrlC false, .sendText clearLine false,
       .sendText "exit" true, .sendText "clear" true])
  else
    (false, [])

/-- The outcome of one openTerminalForEnvironment invocation: the ordered
trace of terminal events, whether the busy warning dialog was shown, and
whether the terminal was newly created. -/
structure OpenResult where
  events : List TerminalEvent
  promptShown : Bool
  createdNew : Bool
deriving DecidableEq, Repr

/-- openTerminalForEnvironment, modelled on the current host terminals and
the user's dialog choice: find or create the shared terminal; for an
existing busy terminal consult handleBusyTerminal and abort when it
reports false; otherwise send the cu terminal command and show the
terminal. -/
def openTerminalForEnvironment (terminals : List Terminal)
    (userChoice : Option String) (environmentId : String) : OpenResult :=
  let found := findOrCreateContainerUseTerminal terminals
  let terminal := found.1
  let isNewlyCreated := found.2
  if !isNewlyCreated && isTerminalBusy terminal then
    let handled := handleBusyTerminal userChoice
    if !handled.1 then
      { events := handled.2, promptShown := true, createdNew := isNewlyCreated }
    else
      { events := handled.2 ++
          [.sendText ("cu terminal " ++ environmentId) true, .reveal]
        promptShown := true
        createdNew := isNewlyCreated }
  else
    { events := [.sendText ("cu terminal " ++ environmentId) true, .reveal]
      promptShown := false
      createdNew := isNewlyCreated }

/-! ## Basic lemmas -/

theorem containsSub_iff (needle hay : Str) :
    containsSub needle hay = true ↔ needle <:+: hay := by
  induction hay with
  | nil =>
    simp [containsSub, List.isPrefixOf_iff_prefix]
  | cons a t ih =>
    simp [containsSub, List.isPrefixOf_iff_prefix, ih, List.infix_cons_iff]

/-! ## Claim theorems: session terminal manager -/

/-- C1: when the shared session is found and detected busy and the user
confirms interruption, the trace of the open-terminal operation is exactly
interrupt, interrupt, line-clear, exit, screen-clear, then the new
command (and only then the terminal is revealed); nothing is interleaved
or reordered. -/
theorem busy_confirmed_interruption_sequence
    (terminals : List Terminal) (t : Terminal) (environmentId : String)
    (hfind : terminals.find? (fun u => u.name == containerUseTerminalName) = some t)
    (hbusy : isTerminalBusy t = true) :
    openTerminalForEnvironment terminals (some interruptProcessChoice) environmentId =
      { events :=
          [.sendText ctrlC false, .sendText ctrlC false, .sendText clearLine false,
           .sendText "exit" true, .sendText "clear" true,
           .sendText ("cu terminal " ++ environmentId) true, .reveal]
        promptShown := true
        createdNew := false } := by
  simp [openTerminalForEnvironment, findOrCreateContainerUseTerminal, hfind, hbusy,
    handleBusyTerminal]

theorem busy_confirmed_interruption_sequence_witness :
    openTerminalForEnvironment
        [{ name := containerUseTerminalName,
           shellIntegration := some { executeCommandDefined := true, cwdDefined := true } }]
        (some interruptProcessChoice) "env-1" =
      { events :=
          [.sendText ctrlC false, .sendText ctrlC false, .sendText clearLine false,
           .sendText "exit" true, .sendText "clear" true,
           .sendText ("cu terminal " ++ "env-1") true, .reveal]
        promptShown := true
        createdNew := false } :=
  busy_confirmed_interruption_sequence _
    { name := containerUseTerminalName,
      shellIntegration := some { executeCommandDefined := true, cwdDefined := true } }
    _ (by decide) (by decide)

/-- C2: when the shared session is found and detected busy and the user
declines or dismisses the interruption prompt, the open-terminal
operation sends nothing at all to the session (no command, no part of the
interruption sequence) and performs no other terminal action. -/
theorem busy_declined_sends_nothing
    (terminals : List Terminal) (t : Terminal) (environmentId : String)
    (userChoice : Option String)
    (hfind : terminals.find? (fun u => u.name == containerUseTerminalName) = some t)
    (hbusy : isTerminalBusy t = true)
    (hdecline : userChoice ≠ some interruptProcessChoice) :
    (openTerminalForEnvironment terminals userChoice environmentId).events = [] := by
  simp [openTerminalForEnvironment, findOrCreateContainerUseTerminal, hfind, hbusy,
    handleBusyTerminal, hdecline]

theorem busy_declined_sends_nothing_witness :
    (openTerminalForEnvironment
        [{ name := containerUseTerminalName,
           shellIntegration := some { executeCommandDefined := true, cwdDefined := true } }]
        (some "Cancel") "env-1").events = [] :=
  busy_declined_sends_nothing _
    { name := containerUseTerminalName,
      shellIntegration := some { executeCommandDefined := true, cwdDefined := true } }
    _ _ (by decide) (by decide) (by decide)

/-- C5: isTerminalBusy reports busy only when the shell integration object
exists with both inspected members defined; a terminal without shell
integration is never reported busy. -/
theorem busy_detection_requires_shell_integration (t : Terminal) :
    (t.shellIntegration = none → isTerminalBusy t = false) ∧
    (isTerminalBusy t = true →
      ∃ si, t.shellIntegration = some si ∧
        si.executeCommandDefined = true ∧ si.cwdDefined = true) := by
  cases h : t.shellIntegration with
  | none => simp [isTerminalBusy, h]
  | some si => simp [isTerminalBusy, h]

theorem busy_detection_requires_shell_integration_witness :
    isTerminalBusy { name := containerUseTerminalName, shellIntegration := none } = false :=
  (busy_detection_requires_shell_integration _).1 rfl

/-- C6: when no terminal carries the well-known name, the open-terminal
operation creates a new one and treats it as idle: independently of the
shell integration of the other terminals and of any dialog choice, no
prompt is shown and the trace is just the new command followed by the
reveal. -/
theorem missing_terminal_created_idle
    (terminals : List Terminal) (userChoice : Option String) (environmentId : String)
    (habsent : ∀ t ∈ terminals, t.name ≠ containerUseTerminalName) :
    openTerminalForEnvironment terminals userChoice environmentId =
      { events := [.sendText ("cu terminal " ++ environmentId) true, .reveal]
        promptShown := false
        createdNew := true } := by
  have hfind : terminals.find? (fun u => u.name == containerUseTerminalName) = none := by
    rw [List.find?_eq_none]
    intro t ht
    simpa using habsent t ht
  simp [openTerminalForEnvironment, findOrCreateContainerUseTerminal, hfind, isTerminalBusy]

theorem missing_terminal_created_idle_witness :
    openTerminalForEnvironment
        [{ name := "other",
           shellIntegration := some { executeCommandDefined := true, cwdDefined := true } }]
        (some interruptProcessChoice) "env-1" =
      { events := [.sendText ("cu terminal " ++ "env-1") true, .reveal]
        promptShown := false
        createdNew := true } :=
  missing_terminal_created_idle _ _ _ (by decide)

/-! ## Claim theorems: process invoker, probes, listing, parser basics -/

/-- C7: run maps a subprocess that exits 0 with stdout ok and empty stderr
to success, exit code 0, stdout ok, empty stderr; and it maps a rejection
with exit code 2 and stderr bad arg (whatever stdout and message the error
object carries) to a failed result with exit code 2 and stderr bad arg,
streams trimmed. -/
theorem run_success_and_failure_mapping (errStdout : Option Str) (message : Str) :
    run (.ok (str "ok") (str "")) =
      { stdout := str "ok", stderr := [], exitCode := 0, success := true } ∧
    ((run (.err errStdout (some (str "bad arg")) message (some 2))).success = false ∧
     (run (.err errStdout (some (str "bad arg")) message (some 2))).exitCode = 2 ∧
     (run (.err errStdout (some (str "bad arg")) message (some 2))).stderr = str "bad arg") := by
  refine ⟨by decide, rfl, rfl, rfl⟩

theorem run_success_and_failure_mapping_witness :
    run (.ok (str "ok") (str "")) =
      { stdout := str "ok", stderr := [], exitCode := 0, success := true } ∧
    ((run (.err none (some (str "bad arg")) [] (some 2))).success = false ∧
     (run (.err none (some (str "bad arg")) [] (some 2))).exitCode = 2 ∧
     (run (.err none (some (str "bad arg")) [] (some 2))).stderr = str "bad arg") :=
  run_success_and_failure_mapping none []

/-- C10: whenever the underlying list invocation failed (success false or
a non-zero exit code) or produced empty stdout, environments returns the
empty list; a failed listing is thus indistinguishable from a genuinely
empty one at this interface. -/
theorem failed_listing_empty (result : CommandResult)
    (h : result.success = false ∨ result.exitCode ≠ 0 ∨ result.stdout = []) :
    environments result = [] := by
  rcases h with h | h | h
  · simp [environments, h]
  · simp [environments, h]
  · unfold environments
    split
    · rfl
    · simp [h]

theorem failed_listing_empty_witness :
    environments { stdout := str "env-1  My Env", stderr := [], exitCode := 1,
                   success := false } = [] :=
  failed_listing_empty _ (Or.inl rfl)

/-- C3: the two revisions of the availability probe disagree on a probe
result that exits 0 without the stdio marker anywhere in its output: the
src/cu/cli.ts revision (and the probe's own documentation) reject it,
while the src/cli.ts revision accepts it on the exit code alone. -/
theorem marker_probe_exit_zero_divergence :
    isInstalledOld { stdout := [], stderr := [], exitCode := 0, success := true } = true ∧
    isInstalledCu { stdout := [], stderr := [], exitCode := 0, success := true } = false ∧
    containsSub (str "stdio") [] = false := by
  decide

/-- C8: a line whose trimmed form splits into fewer than two columns
yields no record: parseEnvironmentLine returns none, and in particular the
lone token env-3 contributes nothing to a parse (no record with the title
defaulted to the id). -/
theorem short_line_dropped (line : Str)
    (h : ((splitWs2 (trimWs line)).map trimWs).length < 2) :
    parseEnvironmentLine line = none := by
  simp only [parseEnvironmentLine]
  by_cases he : (trimWs line).isEmpty
  · simp [he]
  · have h2 : (splitWs2 (trimWs line)).length < 2 := by simpa using h
    simp [he, h2]

theorem short_line_dropped_witness :
    parseEnvironmentLine (str "env-3") = none ∧
    parseEnvironmentLines [str "env-3"] = [] :=
  ⟨short_line_dropped _ (by decide), by decide⟩

/-- C4: a line is classified as a header (and is dropped, producing no
record) exactly when its trimmed form starts with ID and contains TITLE,
CREATED or UPDATED; and the two-line input of the standard header followed
by the data line env-1 / My Env / 2024-01-01 / 2024-01-02 parses to
exactly that one record. -/
theorem header_classification (line : Str) :
    (isHeaderLine line = true ↔
      ((str "ID") <+: trimWs line ∧
        ((str "TITLE") <:+: trimWs line ∨ (str "CREATED") <:+: trimWs line ∨
         (str "UPDATED") <:+: trimWs line))) ∧
    (isHeaderLine line = true → parseEnvironmentLines [line] = []) ∧
    parseEnvironmentLines
        [str "ID  TITLE  CREATED  UPDATED", str "env-1  My Env  2024-01-01  2024-01-02"] =
      [{ id := str "env-1", name := str "My Env", title := str "My Env",
         created := some (str "2024-01-01"), updated := some (str "2024-01-02") }] := by
  refine ⟨?_, ?_, by decide⟩
  · simp [isHeaderLine, List.isPrefixOf_iff_prefix, containsSub_iff, or_assoc]
  · intro h
    simp [parseEnvironmentLines, keepLine, h]

theorem header_classification_witness :
    parseEnvironmentLines [str "ID  TITLE  CREATED  UPDATED"] = [] ∧
    parseEnvironmentLines
        [str "ID  TITLE  CREATED  UPDATED", str "env-1  My Env  2024-01-01  2024-01-02"] =
      [{ id := str "env-1", name := str "My Env", title := str "My Env",
         created := some (str "2024-01-01"), updated := some (str "2024-01-02") }] :=
  ⟨(header_classification (str "ID  TITLE  CREATED  UPDATED")).2.1 (by decide),
   (header_classification []).2.2⟩

/-! ## Round-trip development: clean columns and the split of a joined line -/

/-- No two consecutive whitespace characters. -/
def noWs2 : Str → Bool
  | [] => true
  | [_] => true
  | a :: b :: t => !(isWsChar a && isWsChar b) && noWs2 (b :: t)

/-- Last character with a default. -/
def lastD : Str → Char → Char
  | [], d => d
  | [a], _ => a
  | _ :: b :: t, d => lastD (b :: t) d

/-- A clean column: non-empty, no whitespace at either end, and no run of
two consecutive whitespace characters inside. -/
def cleanCol : Str → Bool
  | [] => false
  | a :: t => !isWsChar a && !isWsChar (lastD (a :: t) 'x') && noWs2 (a :: t)

/-- A line made of clean columns joined by runs of two-or-more whitespace
characters, together with its column list. -/
inductive JoinCols : Str → List Str → Prop
  | single (c : Str) : cleanCol c = true → JoinCols c [c]
  | step (c s rest : Str) (cols : List Str) :
      cleanCol c = true → 2 ≤ s.length → (∀ x ∈ s, isWsChar x = true) →
      JoinCols rest cols → JoinCols (c ++ s ++ rest) (c :: cols)

theorem lastD_cons_cons (a b : Char) (t : Str) (d : Char) :
    lastD (a :: b :: t) d = lastD (b :: t) d := rfl

theorem lastD_append (u v : Str) (d : Char) (hv : v ≠ []) :
    lastD (u ++ v) d = lastD v d := by
  induction u with
  | nil => rfl
  | cons a u ih =>
    cases hu : u ++ v with
    | nil => exact absurd (List.append_eq_nil.mp hu).2 hv
    | cons b t =>
      rw [List.cons_append, hu, lastD_cons_cons, ← hu, ih]

theorem headD_append (u v : Str) (d : Char) (hu : u ≠ []) :
    (u ++ v).headD d = u.headD d := by
  cases u with
  | nil => exact absurd rfl hu
  | cons a t => rfl

theorem noWs2_tail (a : Char) (t : Str) (h : noWs2 (a :: t) = true) :
    noWs2 t = true := by
  cases t with
  | nil => rfl
  | cons b t2 =>
    simp only [noWs2, Bool.and_eq_true] at h
    exact h.2

theorem splitGo_sep (c c2 : Char) (cs2 acc : Str) (h : isWsChar c = true)
    (h2 : isWsChar c2 = true) :
    splitGo (c :: c2 :: cs2) acc false = acc.reverse :: splitGo cs2 [] true := by
  rw [splitGo.eq_def]
  simp [h, h2]

theorem splitGo_ws_single (c : Char) (acc : Str) (h : isWsChar c = true) :
    splitGo [c] acc false = [(c :: acc).reverse] := by
  rw [splitGo.eq_def]
  simp [h]

theorem splitGo_ws_nws (c c2 : Char) (cs2 acc : Str) (h : isWsChar c = true)
    (h2 : isWsChar c2 = false) :
    splitGo (c :: c2 :: cs2) acc false = splitGo (c2 :: cs2) (c :: acc) false := by
  rw [splitGo.eq_def]
  simp [h, h2]

theorem splitGo_nws (c : Char) (cs acc : Str) (h : isWsChar c = false) :
    splitGo (c :: cs) acc false = splitGo cs (c :: acc) false := by
  rw [splitGo.eq_def]
  simp [h]

theorem splitGo_skip_ws (c : Char) (cs acc : Str) (h : isWsChar c = true) :
    splitGo (c :: cs) acc true = splitGo cs acc true := by
  rw [splitGo.eq_def]
  simp [h]

theorem splitGo_skip_nws (c : Char) (cs acc : Str) (h : isWsChar c = false) :
    splitGo (c :: cs) acc true = splitGo cs [c] false := by
  rw [splitGo.eq_def]
  simp [h]

/-- Skipping the remainder of a separator run: with only whitespace left
before the next column, splitGo in skipping mode agrees with a fresh start
at the next column. -/
theorem splitGo_skip (s : Str) (hs : ∀ x ∈ s, isWsChar x = true)
    (rest : Str) (hrest : rest ≠ []) (hhead : isWsChar (rest.headD 'x') = false) :
    splitGo (s ++ rest) [] true = splitGo rest [] false := by
  induction s with
  | nil =>
    cases rest with
    | nil => exact absurd rfl hrest
    | cons r t =>
      have hr : isWsChar r = false := hhead
      rw [List.nil_append, splitGo_skip_nws r t [] hr, splitGo_nws r t [] hr]
  | cons w s ih =>
    have hw : isWsChar w = true := hs w (by simp)
    rw [List.cons_append, splitGo_skip_ws _ _ _ hw]
    exact ih (fun x hx => hs x (by simp [hx]))

/-- Splitting a single clean-ended column: every character is kept and the
one column is returned. -/
theorem splitGo_single :
    ∀ p : Str, p ≠ [] → noWs2 p = true → isWsChar (lastD p 'x') = false →
      ∀ acc, splitGo p acc false = [acc.reverse ++ p] := by
  intro p
  induction p with
  | nil => intro h; exact absurd rfl h
  | cons a t ih =>
    intro _ hn2 hlast acc
    cases t with
    | nil =>
      have ha : isWsChar a = false := hlast
      rw [splitGo_nws a [] acc ha]
      simp [splitGo]
    | cons b t2 =>
      have hlast2 : isWsChar (lastD (b :: t2) 'x') = false := hlast
      have hn2' : noWs2 (b :: t2) = true := noWs2_tail _ _ hn2
      have hrec := ih (by simp) hn2' hlast2 (a :: acc)
      by_cases ha : isWsChar a = true
      · have hb : isWsChar b = false := by
          simp only [noWs2, Bool.and_eq_true, Bool.not_eq_true',
            Bool.and_eq_false_iff] at hn2
          rcases hn2.1 with h | h
          · rw [h] at ha; exact absurd ha (by simp)
          · exact h
        rw [splitGo_ws_nws a b t2 acc ha hb, hrec]
        simp
      · have ha' : isWsChar a = false := by simpa using ha
        rw [splitGo_nws a (b :: t2) acc ha', hrec]
        simp

/-- Splitting a clean-ended column followed by a separator run and more
input: the column is emitted and the split restarts at the next column. -/
theorem splitGo_column :
    ∀ p : Str, p ≠ [] → noWs2 p = true → isWsChar (lastD p 'x') = false →
      ∀ acc (s rest : Str), 2 ≤ s.length → (∀ x ∈ s, isWsChar x = true) →
        rest ≠ [] → isWsChar (rest.headD 'x') = false →
        splitGo (p ++ s ++ rest) acc false =
          (acc.reverse ++ p) :: splitGo rest [] false := by
  intro p
  induction p with
  | nil => intro h; exact absurd rfl h
  | cons a t ih =>
    intro _ hn2 hlast acc s rest hs2 hsws hrest hresthead
    cases t with
    | nil =>
      have ha : isWsChar a = false := hlast
      match s, hs2 with
      | s1 :: s2 :: s3, _ =>
        have hs1 : isWsChar s1 = true := hsws s1 (by simp)
        have hs2w : isWsChar s2 = true := hsws s2 (by simp)
        have hskip : splitGo (s3 ++ rest) [] true = splitGo rest [] false :=
          splitGo_skip s3 (fun x hx => hsws x (by simp [hx])) rest hrest hresthead
        calc splitGo (([a] ++ (s1 :: s2 :: s3)) ++ rest) acc false
            = splitGo (s1 :: s2 :: (s3 ++ rest)) (a :: acc) false := by
              rw [show ([a] ++ (s1 :: s2 :: s3)) ++ rest
                    = a :: s1 :: s2 :: (s3 ++ rest) by simp]
              rw [splitGo_nws a _ acc ha]
          _ = (a :: acc).reverse :: splitGo (s3 ++ rest) [] true := by
              rw [splitGo_sep s1 s2 _ _ hs1 hs2w]
          _ = (acc.reverse ++ [a]) :: splitGo rest [] false := by
              rw [hskip]; simp
    | cons b t2 =>
      have hlast2 : isWsChar (lastD (b :: t2) 'x') = false := hlast
      have hn2' : noWs2 (b :: t2) = true := noWs2_tail _ _ hn2
      have hrec := ih (by simp) hn2' hlast2 (a :: acc) s rest hs2 hsws hrest hresthead
      have hstep : splitGo ((a :: b :: t2) ++ s ++ rest) acc false
          = splitGo ((b :: t2) ++ s ++ rest) (a :: acc) false := by
        by_cases ha : isWsChar a = true
        · have hb : isWsChar b = false := by
            simp only [noWs2, Bool.and_eq_true, Bool.not_eq_true',
              Bool.and_eq_false_iff] at hn2
            rcases hn2.1 with h | h
            · rw [h] at ha; exact absurd ha (by simp)
            · exact h
          rw [show (a :: b :: t2) ++ s ++ rest = a :: b :: (t2 ++ s ++ rest) by simp]
          rw [splitGo_ws_nws a b _ acc ha hb]
          simp
        · have ha' : isWsChar a = false := by simpa using ha
          rw [show (a :: b :: t2) ++ s ++ rest = a :: ((b :: t2) ++ s ++ rest) by simp]
          rw [splitGo_nws a _ acc ha']
      rw [hstep, hrec]
      simp

/-- Clean columns are non-empty with whitespace-free ends and no internal
double whitespace. -/
theorem cleanCol_spec (c : Str) (h : cleanCol c = true) :
    c ≠ [] ∧ isWsChar (c.headD 'x') = false ∧
      isWsChar (lastD c 'x') = false ∧ noWs2 c = true := by
  cases c with
  | nil => simp [cleanCol] at h
  | cons a t =>
    simp only [cleanCol, Bool.and_eq_true, Bool.not_eq_true'] at h
    exact ⟨by simp, h.1.1, h.1.2, h.2⟩

/-- A joined line is non-empty and begins with a non-whitespace
character. -/
theorem JoinCols.ne_nil_head :
    ∀ {l : Str} {cols : List Str}, JoinCols l cols →
      l ≠ [] ∧ isWsChar (l.headD 'x') = false := by
  intro l cols h
  induction h with
  | single c hc => exact ⟨(cleanCol_spec c hc).1, (cleanCol_spec c hc).2.1⟩
  | step c s rest cols hc _ _ _ _ =>
    obtain ⟨hne, hhead, _, _⟩ := cleanCol_spec c hc
    constructor
    · simp [hne]
    · rw [show c ++ s ++ rest = c ++ (s ++ rest) by simp]
      rw [headD_append c (s ++ rest) 'x' hne]
      exact hhead

/-- A joined line ends with a non-whitespace character. -/
theorem JoinCols.last_not_ws :
    ∀ {l : Str} {cols : List Str}, JoinCols l cols →
      isWsChar (lastD l 'x') = false := by
  intro l cols h
  induction h with
  | single c hc => exact (cleanCol_spec c hc).2.2.1
  | step c s rest cols hc _ _ hrest ih =>
    rw [show c ++ s ++ rest = (c ++ s) ++ rest by simp]
    rw [lastD_append (c ++ s) rest 'x' hrest.ne_nil_head.1]
    exact ih

/-- Every column of a joined line is clean. -/
theorem JoinCols.cols_clean :
    ∀ {l : Str} {cols : List Str}, JoinCols l cols →
      ∀ c ∈ cols, cleanCol c = true := by
  intro l cols h
  induction h with
  | single c hc => intro d hd; simp at hd; rw [hd]; exact hc
  | step c s rest cols hc _ _ _ ih =>
    intro d hd
    rcases List.mem_cons.mp hd with h | h
    · rw [h]; exact hc
    · exact ih d h

/-- The first column of a joined line is a prefix of the line. -/
theorem JoinCols.head_col_prefix {l c : Str} {cols : List Str}
    (h : JoinCols l (c :: cols)) : c <+: l := by
  cases h with
  | single _ hc => exact List.prefix_refl _
  | step _ s rest cols hc _ _ _ =>
    rw [show c ++ s ++ rest = c ++ (s ++ rest) by simp]
    exact List.prefix_append _ _

/-- The split of a joined line is exactly its column list. -/
theorem splitWs2_join :
    ∀ {l : Str} {cols : List Str}, JoinCols l cols → splitWs2 l = cols := by
  intro l cols h
  induction h with
  | single c hc =>
    obtain ⟨hne, _, hlast, hn2⟩ := cleanCol_spec c hc
    unfold splitWs2
    rw [splitGo_single c hne hn2 hlast []]
    simp
  | step c s rest cols hc hs2 hsws hrest ih =>
    obtain ⟨hne, _, hlast, hn2⟩ := cleanCol_spec c hc
    unfold splitWs2
    rw [splitGo_column c hne hn2 hlast [] s rest hs2 hsws
        hrest.ne_nil_head.1 hrest.ne_nil_head.2]
    unfold splitWs2 at ih
    rw [ih]
    simp

theorem headD_reverse : ∀ (l : Str) (d : Char), l ≠ [] →
    l.reverse.headD d = lastD l d := by
  intro l
  induction l with
  | nil => intro d h; exact absurd rfl h
  | cons a t ih =>
    intro d _
    cases t with
    | nil => rfl
    | cons b t2 =>
      rw [show (a :: b :: t2).reverse = (b :: t2).reverse ++ [a] by simp]
      rw [headD_append _ _ _ (by simp), ih d (by simp), lastD_cons_cons]

theorem dropWhile_ws_eq_self (l : Str) (h : isWsChar (l.headD 'x') = false) :
    l.dropWhile isWsChar = l := by
  cases l with
  | nil => rfl
  | cons a t =>
    have ha : isWsChar a = false := h
    simp [List.dropWhile_cons, ha]

theorem trimWs_eq_self (l : Str) (hne : l ≠ [])
    (hhead : isWsChar (l.headD 'x') = false)
    (hlast : isWsChar (lastD l 'x') = false) : trimWs l = l := by
  unfold trimWs
  rw [dropWhile_ws_eq_self l hhead]
  rw [dropWhile_ws_eq_self l.reverse (by rw [headD_reverse l 'x' hne]; exact hlast)]
  exact List.reverse_reverse l

theorem map_trimWs_self : ∀ cs : List Str, (∀ c ∈ cs, trimWs c = c) →
    cs.map trimWs = cs := by
  intro cs
  induction cs with
  | nil => intro _; rfl
  | cons c t ih =>
    intro h
    rw [List.map_cons, h c (by simp), ih (fun d hd => h d (by simp [hd]))]

/-- A clean column is its own trim. -/
theorem trimWs_clean (c : Str) (hc : cleanCol c = true) : trimWs c = c := by
  obtain ⟨hne, hhead, hlast, _⟩ := cleanCol_spec c hc
  exact trimWs_eq_self c hne hhead hlast

/-- A joined line is its own trim. -/
theorem trimWs_join {l : Str} {cols : List Str} (h : JoinCols l cols) :
    trimWs l = l :=
  trimWs_eq_self l h.ne_nil_head.1 h.ne_nil_head.2 h.last_not_ws

/-- Parsing a line joined from at least two clean columns produces the
record determined by its columns. -/
theorem parseEnvironmentLine_join {l : Str} {c0 c1 : Str} {cols : List Str}
    (h : JoinCols l (c0 :: c1 :: cols)) :
    parseEnvironmentLine l =
      some { id := c0, name := c1, title := c1,
             created := cols.get? 0, updated := cols.get? 1 } := by
  have htrim : trimWs l = l := trimWs_join h
  have hne : l ≠ [] := h.ne_nil_head.1
  have hsplit : splitWs2 l = c0 :: c1 :: cols := splitWs2_join h
  have hmap : (c0 :: c1 :: cols).map trimWs = c0 :: c1 :: cols :=
    map_trimWs_self _ (fun c hc => trimWs_clean c (h.cols_clean c hc))
  have hc0 : c0 ≠ [] := (cleanCol_spec c0 (h.cols_clean c0 (by simp))).1
  have hc1 : c1 ≠ [] := (cleanCol_spec c1 (h.cols_clean c1 (by simp))).1
  simp only [parseEnvironmentLine, htrim, hsplit, hmap]
  rw [if_neg (by simp [List.isEmpty_eq_true, hne])]
  rw [if_neg (by simp)]
  simp [List.isEmpty_eq_true, hc1]

/-- A joined non-header line passes the filter of parseEnvironmentLines. -/
theorem keepLine_join {l : Str} {cols : List Str} (h : JoinCols l cols)
    (hh : isHeaderLine l = false) : keepLine l = true := by
  unfold keepLine
  rw [trimWs_join h, hh]
  simp [h.ne_nil_head.1]

/-! ## Transfer of the header test through re-serialization -/

/-- A whitespace-free token that is a prefix of a column followed by
whitespace and more text is a prefix of the column alone. -/
theorem prefix_of_append_ws :
    ∀ (needle : Str), (∀ x ∈ needle, isWsChar x = false) →
      ∀ (u mid v : Str), mid ≠ [] → (∀ x ∈ mid, isWsChar x = true) →
        needle <+: u ++ mid ++ v → needle <+: u := by
  intro needle
  induction needle with
  | nil => intro _ u mid v _ _ _; exact List.nil_prefix
  | cons n n2 ih =>
    intro hn u mid v hmid hmidws hpre
    cases u with
    | nil =>
      cases mid with
      | nil => exact absurd rfl hmid
      | cons m mid2 =>
        rw [List.nil_append, List.cons_append, List.cons_prefix_cons] at hpre
        have := hmidws m (by simp)
        rw [← hpre.1] at this
        rw [hn n (by simp)] at this
        exact absurd this (by simp)
    | cons a u2 =>
      rw [show (a :: u2) ++ mid ++ v = a :: (u2 ++ mid ++ v) by simp,
        List.cons_prefix_cons] at hpre
      rw [List.cons_prefix_cons]
      exact ⟨hpre.1,
        ih (fun x hx => hn x (by simp [hx])) u2 mid v hmid hmidws hpre.2⟩

/-- A non-empty whitespace-free token inside whitespace followed by text
lies inside the text. -/
theorem infix_of_ws_append :
    ∀ (mid : Str), (∀ x ∈ mid, isWsChar x = true) →
      ∀ (needle v : Str), needle ≠ [] → (∀ x ∈ needle, isWsChar x = false) →
        needle <:+: mid ++ v → needle <:+: v := by
  intro mid
  induction mid with
  | nil => intro _ needle v _ _ h; exact h
  | cons m mid2 ih =>
    intro hmidws needle v hne hn hinf
    rw [List.cons_append, List.infix_cons_iff] at hinf
    rcases hinf with h | h
    · cases needle with
      | nil => exact absurd rfl hne
      | cons n n2 =>
        rw [List.cons_prefix_cons] at h
        have := hmidws m (by simp)
        rw [← h.1] at this
        rw [hn n (by simp)] at this
        exact absurd this (by simp)
    · exact ih (fun x hx => hmidws x (by simp [hx])) needle v hne hn h

/-- A non-empty whitespace-free token inside a line of the form column,
whitespace run, text lies inside the column or inside the text. -/
theorem infix_of_append_ws_append :
    ∀ (u : Str) (needle mid v : Str), needle ≠ [] →
      (∀ x ∈ needle, isWsChar x = false) → mid ≠ [] →
      (∀ x ∈ mid, isWsChar x = true) →
      needle <:+: u ++ mid ++ v → needle <:+: u ∨ needle <:+: v := by
  intro u
  induction u with
  | nil =>
    intro needle mid v hne hn hmid hmidws hinf
    rw [List.nil_append] at hinf
    exact Or.inr (infix_of_ws_append mid hmidws needle v hne hn hinf)
  | cons a u2 ih =>
    intro needle mid v hne hn hmid hmidws hinf
    rw [show (a :: u2) ++ mid ++ v = a :: (u2 ++ mid ++ v) by simp,
      List.infix_cons_iff] at hinf
    rcases hinf with h | h
    · left
      have h2 : needle <+: (a :: u2) ++ mid ++ v := by
        rw [show (a :: u2) ++ mid ++ v = a :: (u2 ++ mid ++ v) by simp]
        exact h
      exact (prefix_of_append_ws needle hn (a :: u2) mid v hmid hmidws h2).isInfix
    · rcases ih needle mid v hne hn hmid hmidws h with h2 | h2
      · exact Or.inl (List.infix_cons h2)
      · exact Or.inr h2

/-- The second column of a joined line with at least two columns occurs
inside the line. -/
theorem JoinCols.second_col_infix {l c0 c1 : Str} {cols : List Str}
    (h : JoinCols l (c0 :: c1 :: cols)) : c1 <:+: l := by
  cases h with
  | step _ s rest cols hc _ _ hrest =>
    have h1 : c1 <+: rest := hrest.head_col_prefix
    have h2 : rest <:+ (c0 ++ s) ++ rest := List.suffix_append _ _
    rw [show c0 ++ s ++ rest = (c0 ++ s) ++ rest by simp] at *
    exact h1.isInfix.trans h2.isInfix

/-- Re-serializing the first two columns with a two-space separator. -/
def serializeIdTitle (e : Environment) : Str := e.id ++ [' ', ' '] ++ e.title

/-- Forget the two optional timestamp columns of a record. -/
def withoutDates (e : Environment) : Environment :=
  { e with created := none, updated := none }

theorem joinCols_serialized {c0 c1 : Str} (hc0 : cleanCol c0 = true)
    (hc1 : cleanCol c1 = true) :
    JoinCols (c0 ++ [' ', ' '] ++ c1) [c0, c1] :=
  JoinCols.step c0 [' ', ' '] c1 [c1] hc0 (by decide) (by decide)
    (JoinCols.single c1 hc1)

/-- The re-serialized first two columns of a non-header joined line do not
form a header line either. -/
theorem isHeaderLine_serialized {l c0 c1 : Str} {cols : List Str}
    (h : JoinCols l (c0 :: c1 :: cols)) (hh : isHeaderLine l = false) :
    isHeaderLine (c0 ++ [' ', ' '] ++ c1) = false := by
  have hc0 : cleanCol c0 = true := h.cols_clean c0 (by simp)
  have hc1 : cleanCol c1 = true := h.cols_clean c1 (by simp)
  have hjser : JoinCols (c0 ++ [' ', ' '] ++ c1) [c0, c1] :=
    joinCols_serialized hc0 hc1
  have htriml : trimWs l = l := trimWs_join h
  have htrimser : trimWs (c0 ++ [' ', ' '] ++ c1) = c0 ++ [' ', ' '] ++ c1 :=
    trimWs_join hjser
  by_contra h'
  have hser : isHeaderLine (c0 ++ [' ', ' '] ++ c1) = true := by
    simpa using h'
  rw [isHeaderLine, htrimser] at hser
  simp only [Bool.and_eq_true, Bool.or_eq_true, List.isPrefixOf_iff_prefix,
    containsSub_iff] at hser
  have hIDws : ∀ x ∈ str "ID", isWsChar x = false := by decide
  have hmidne : ([' ', ' '] : Str) ≠ [] := by decide
  have hmidws : ∀ x ∈ ([' ', ' '] : Str), isWsChar x = true := by decide
  have hidl : str "ID" <+: l := by
    have := prefix_of_append_ws (str "ID") hIDws c0 [' ', ' '] c1 hmidne hmidws
      hser.1
    exact this.trans h.head_col_prefix
  have htrans : ∀ needle : Str, needle ≠ [] → (∀ x ∈ needle, isWsChar x = false) →
      needle <:+: c0 ++ [' ', ' '] ++ c1 → needle <:+: l := by
    intro needle hne hnws hinf
    rcases infix_of_append_ws_append c0 needle [' ', ' '] c1 hne hnws hmidne
        hmidws hinf with h2 | h2
    · exact h2.trans h.head_col_prefix.isInfix
    · exact h2.trans h.second_col_infix
  have hl : isHeaderLine l = true := by
    rw [isHeaderLine, htriml]
    simp only [Bool.and_eq_true, Bool.or_eq_true, List.isPrefixOf_iff_prefix,
      containsSub_iff]
    refine ⟨hidl, ?_⟩
    rcases hser.2 with (h2 | h2) | h2
    · exact Or.inl (Or.inl (htrans _ (by decide) (by decide) h2))
    · exact Or.inl (Or.inr (htrans _ (by decide) (by decide) h2))
    · exact Or.inr (htrans _ (by decide) (by decide) h2)
  rw [hl] at hh
  exact absurd hh (by simp)

/-- A well-formed data line: clean columns joined by runs of two-or-more
whitespace characters, at least two columns, and not a header line. -/
def WellFormedDataLine (l : Str) : Prop :=
  ∃ cols, JoinCols l cols ∧ 2 ≤ cols.length ∧ isHeaderLine l = false

/-- C9 counterexample: on the well-formed three-column data line
env-1 / My Env / 2024-01-01, parsing, re-serializing only the id and
title columns with a two-space separator, and parsing again does not
yield the same records (the created column is lost). -/
theorem roundtrip_counterexample :
    parseEnvironmentLines
        ((parseEnvironmentLines [str "env-1  My Env  2024-01-01"]).map
          serializeIdTitle) ≠
      parseEnvironmentLines [str "env-1  My Env  2024-01-01"] := by
  decide

/-- C9 amended: for well-formed data lines, parsing, re-serializing the
id and title columns with a two-space separator, and parsing again yields
the same records except that the created and updated columns are absent
(in particular the same records whenever the lines have exactly two
columns). -/
theorem roundtrip_preserves_id_title (lines : List Str)
    (hwf : ∀ l ∈ lines, WellFormedDataLine l) :
    parseEnvironmentLines ((parseEnvironmentLines lines).map serializeIdTitle) =
      (parseEnvironmentLines lines).map withoutDates := by
  induction lines with
  | nil => rfl
  | cons l rest ih =>
    obtain ⟨cols, hj, hlen, hh⟩ := hwf l (by simp)
    rcases cols with _ | ⟨c0, _ | ⟨c1, cols2⟩⟩
    · simp at hlen
    · simp at hlen
    · have hkeep : keepLine l = true := keepLine_join hj hh
      have hparse := parseEnvironmentLine_join hj
      have hc0 : cleanCol c0 = true := hj.cols_clean c0 (by simp)
      have hc1 : cleanCol c1 = true := hj.cols_clean c1 (by simp)
      have hjser : JoinCols (c0 ++ [' ', ' '] ++ c1) [c0, c1] :=
        joinCols_serialized hc0 hc1
      have hhser : isHeaderLine (c0 ++ [' ', ' '] ++ c1) = false :=
        isHeaderLine_serialized hj hh
      have hkeepser : keepLine (c0 ++ [' ', ' '] ++ c1) = true :=
        keepLine_join hjser hhser
      have hparseser : parseEnvironmentLine (c0 ++ [' ', ' '] ++ c1) =
          some { id := c0, name := c1, title := c1,
                 created := none, updated := none } := by
        have := parseEnvironmentLine_join hjser
        simpa using this
      have ihrest := ih (fun x hx => hwf x (by simp [hx]))
      simp only [parseEnvironmentLines, List.filter_cons, hkeep, if_pos,
        List.filterMap_cons, hparse] at *
      simp only [List.map_cons, serializeIdTitle, List.filter_cons,
        List.filterMap_cons, hkeepser, if_pos, hparseser, withoutDates]
      rw [ihrest]

theorem roundtrip_preserves_id_title_witness :
    parseEnvironmentLines
        ((parseEnvironmentLines [str "env-1  My Env  2024-01-01"]).map
          serializeIdTitle) =
      (parseEnvironmentLines [str "env-1  My Env  2024-01-01"]).map
        withoutDates := by
  refine roundtrip_preserves_id_title _ ?_
  intro l hl
  rw [List.mem_singleton.mp hl]
  refine ⟨[str "env-1", str "My Env", str "2024-01-01"], ?_, by simp, by decide⟩
  have j3 : JoinCols (str "2024-01-01") [str "2024-01-01"] :=
    JoinCols.single _ (by decide)
  have j2 : JoinCols (str "My Env  2024-01-01")
      [str "My Env", str "2024-01-01"] := by
    have := JoinCols.step (str "My Env") [' ', ' '] (str "2024-01-01")
      [str "2024-01-01"] (by decide) (by decide) (by decide) j3
    rwa [show str "My Env" ++ [' ', ' '] ++ str "2024-01-01"
        = str "My Env  2024-01-01" by decide] at this
  have j1 := JoinCols.step (str "env-1") [' ', ' '] (str "My Env  2024-01-01")
    [str "My Env", str "2024-01-01"] (by decide) (by decide) (by decide) j2
  rwa [show str "env-1" ++ [' ', ' '] ++ str "My Env  2024-01-01"
      = str "env-1  My Env  2024-01-01" by decide] at j1

end ContainerUse
